import Mathlib

/-!
Shallow embedding of `modmesh/profiling/_result.py`: a tabular report
generator for profiling records.  Python runtime values are modelled by the
inductive `PyVal`, dicts by their key/value pairs in insertion order, and
exceptions by `Except`.  The definitions follow the Python source line by
line; theorems about the spec's claims follow the definitions.
-/

/-- A Python runtime value as it flows through the printer: a string, a
number, a list, or a dict (its key/value pairs, in insertion order).
Python numbers (int and float) are modelled by rationals. -/
inductive PyVal : Type where
  | vstr : String → PyVal
  | vnum : Rat → PyVal
  | vlist : List PyVal → PyVal
  | vdict : List (String × PyVal) → PyVal

/-- Python `x == s` for a string literal `s`: true exactly when `x` is an
equal string.  In Python, comparing a number, list or dict against a `str`
yields `False`. -/
def pyEqStr : PyVal → String → Bool
  | .vstr a, b => a == b
  | _, _ => false

mutual

/-- Python `str(v)`.  A string renders as itself — the only case the code's
tables ever reach through the `func` column.  Numeric rendering abstracts
Python's decimal float repr as `num/den`; list and dict rendering abstracts
the element reprs.  No theorem below evaluates the abstracted cases. -/
def pyStr : PyVal → String
  | .vstr s => s
  | .vnum q =>
    if q.den = 1 then toString q.num
    else toString q.num ++ "/" ++ toString q.den
  | .vlist l => "[" ++ String.intercalate ", " (pyStrList l) ++ "]"
  | .vdict l => "\x7b" ++ String.intercalate ", " (pyStrDict l) ++ "\x7d"

/-- `str` of each element of a list. -/
def pyStrList : List PyVal → List String
  | [] => []
  | v :: vs => pyStr v :: pyStrList vs

/-- `str` of each key/value pair of a dict. -/
def pyStrDict : List (String × PyVal) → List String
  | [] => []
  | (k, v) :: kvs => (k ++ ": " ++ pyStr v) :: pyStrDict kvs

end

/-- The exceptions this module raises, under the spec's names.  The Python
code raises `ValueError` for the first and third, `TypeError` (from keyword
construction) for the second, and `IndexError` (from list indexing) for the
fourth. -/
inductive PyError : Type where
  | invalidInputError : PyError
  | malformedRecordError : PyError
  | notFoundError : PyError
  | indexError : PyError
deriving DecidableEq

/-- A Python list comprehension whose element expression can raise:
elements are evaluated left to right and the first exception aborts the
whole comprehension, discarding the values already computed. -/
def mapExcept {α β ε : Type} (f : α → Except ε β) : List α → Except ε (List β)
  | [] => .ok []
  | a :: as =>
    match f a with
    | .error e => .error e
    | .ok b =>
      match mapExcept f as with
      | .error e => .error e
      | .ok bs => .ok (b :: bs)

/-- Python `s.ljust(w, c)`: pad `s` on the right with `c` up to width `w`;
a string already at least `w` characters long is returned unchanged. -/
def pyLjust (s : String) (w : Nat) (c : Char) : String :=
  s ++ String.mk (List.replicate (w - s.length) c)

/-- The `ProfilingsFunctionResult` dataclass.  Python dataclasses do not
check the annotated types at runtime, so each field holds whatever value the
keyword construction received. -/
structure ProfilingsFunctionResult : Type where
  name : PyVal
  total_time : PyVal
  count : PyVal
  children : PyVal

/-- The `ProfilingColumnData` dataclass: a column name and the column's
cell values. -/
structure ProfilingColumnData : Type where
  column_name : String
  column_data : List PyVal

/-- The four field names `ProfilingsFunctionResult(**result)` requires. -/
def requiredFields : List String := ["name", "total_time", "count", "children"]

/-- `ProfilingsFunctionResult(**result)`: keyword construction from a dict.
It raises `TypeError` — `malformedRecordError` — when a required field is
missing or an extra keyword is present; it does not check the values'
types. -/
def mkRecord (entry : List (String × PyVal)) :
    Except PyError ProfilingsFunctionResult :=
  match entry.lookup "name" with
  | none => .error .malformedRecordError
  | some n =>
    match entry.lookup "total_time" with
    | none => .error .malformedRecordError
    | some t =>
      match entry.lookup "count" with
      | none => .error .malformedRecordError
      | some c =>
        match entry.lookup "children" with
        | none => .error .malformedRecordError
        | some ch =>
          if entry.all (fun kv => requiredFields.contains kv.1) then
            .ok ⟨n, t, c, ch⟩
          else
            .error .malformedRecordError

/-- The state of a `ProfilingResultPrinter`: its records and its column
store. -/
structure ProfilingResultPrinter : Type where
  profiling_results : List ProfilingsFunctionResult
  column_datas : List ProfilingColumnData

/-- `ProfilingResultPrinter.__init__`.  `none` models passing `None`, which
raises `ValueError` — `invalidInputError`.  Otherwise each raw dict is
turned into a record in order, and the column store is seeded with the
`"func"` column holding the records' names. -/
def mkPrinter (profiling_results : Option (List (List (String × PyVal)))) :
    Except PyError ProfilingResultPrinter :=
  match profiling_results with
  | none => .error .invalidInputError
  | some raws =>
    match mapExcept mkRecord raws with
    | .error e => .error e
    | .ok records =>
      .ok ⟨records, [⟨"func", records.map (fun r => r.name)⟩]⟩

/-- `ProfilingResultPrinter.__getitem__`: filter the records by name
equality and return the first match; raise `ValueError` —
`notFoundError` — when the filter result is empty. -/
def ProfilingResultPrinter.getItem (p : ProfilingResultPrinter)
    (function_name : String) : Except PyError ProfilingsFunctionResult :=
  match p.profiling_results.filter (fun x => pyEqStr x.name function_name) with
  | [] => .error .notFoundError
  | r :: _ => .ok r

/-- `ProfilingResultPrinter.add_column`: evaluate the projector on every
record (the comprehension), then append the finished column.  The pair
returned is the call's outcome together with the printer's state after the
call: when the projector raises, the append statement never runs, so the
state is unchanged. -/
def ProfilingResultPrinter.add_column {ε : Type} (p : ProfilingResultPrinter)
    (column_name : String) (f : ProfilingsFunctionResult → Except ε PyVal) :
    Except ε Unit × ProfilingResultPrinter :=
  match mapExcept f p.profiling_results with
  | .error e => (.error e, p)
  | .ok vals =>
    (.ok (), ⟨p.profiling_results, p.column_datas ++ [⟨column_name, vals⟩]⟩)

/-- The state of a `ProfilingTableBuilder`: the columns, the column width,
and the rows computed by `__init__`. -/
structure ProfilingTableBuilder : Type where
  column_datas : List ProfilingColumnData
  column_width : Nat
  row_datas : List (List PyVal)

/-- One row of `ProfilingTableBuilder.__init__`'s transposition:
`[column_datas[j].column_data[i] for j in range(len(column_datas))]`,
raising `IndexError` when some column is shorter than `i + 1`. -/
def buildRow (cds : List ProfilingColumnData) (i : Nat) :
    Except PyError (List PyVal) :=
  mapExcept
    (fun c =>
      match c.column_data.get? i with
      | some v => .ok v
      | none => .error .indexError)
    cds

/-- `ProfilingTableBuilder.__init__`: `row_count` is
`len(column_datas[0].column_data)` — indexing `column_datas[0]` raises
`IndexError` when the column list is empty — and the rows are the
transposition of the columns over `range(row_count)`. -/
def mkTableBuilder (cds : List ProfilingColumnData) (column_width : Nat) :
    Except PyError ProfilingTableBuilder :=
  match cds with
  | [] => .error .indexError
  | c0 :: _ =>
    match mapExcept (buildRow cds) (List.range c0.column_data.length) with
    | .error e => .error e
    | .ok rows => .ok ⟨cds, column_width, rows⟩

/-- `ProfilingTableBuilder.generate_header`: `"| "` + the column names, each
left-justified to the column width, joined by `" | "`, + `" |\n"`. -/
def ProfilingTableBuilder.generate_header (b : ProfilingTableBuilder) : String :=
  "| "
    ++ String.intercalate " | "
      (b.column_datas.map (fun d => pyLjust d.column_name b.column_width ' '))
    ++ " |\n"

/-- `ProfilingTableBuilder.generate_horizontal_lines`: the same shape with
each cell `"".ljust(column_width, "-")`, a run of dashes. -/
def ProfilingTableBuilder.generate_horizontal_lines
    (b : ProfilingTableBuilder) : String :=
  "| "
    ++ String.intercalate " | "
      (b.column_datas.map (fun _ => pyLjust "" b.column_width '-'))
    ++ " |\n"

/-- One body cell: `str(data).ljust(column_width)`. -/
def bodyCell (v : PyVal) (w : Nat) : String :=
  pyLjust (pyStr v) w ' '

/-- `ProfilingTableBuilder.generate_result_row_by_row`: the empty string
when the column list is empty, else one `"| ... |\n"` line per row with each
cell `str(data).ljust(column_width)`. -/
def ProfilingTableBuilder.generate_result_row_by_row
    (b : ProfilingTableBuilder) : String :=
  if b.column_datas.length = 0 then ""
  else
    String.join
      (b.row_datas.map (fun row =>
        "| "
          ++ String.intercalate " | "
            (row.map (fun v => bodyCell v b.column_width))
          ++ " |\n"))

/-- `ProfilingTableBuilder.generate_table_str`: header, then horizontal
lines, then the rows. -/
def ProfilingTableBuilder.generate_table_str (b : ProfilingTableBuilder) : String :=
  b.generate_header ++ b.generate_horizontal_lines ++ b.generate_result_row_by_row

/-- Printer states reachable through the public interface: built by
`mkPrinter` from some raw list, then extended by any sequence of
`add_column` calls, successful or failing alike. -/
inductive PrinterReachable : ProfilingResultPrinter → Prop where
  | init (raws : List (List (String × PyVal))) (p : ProfilingResultPrinter)
      (h : mkPrinter (some raws) = .ok p) : PrinterReachable p
  | add {ε : Type} (p : ProfilingResultPrinter) (column_name : String)
      (f : ProfilingsFunctionResult → Except ε PyVal)
      (h : PrinterReachable p) :
      PrinterReachable (p.add_column column_name f).2

/-- A well-formed raw record list with a single entry, used to instantiate
general theorems at a concrete input. -/
def sampleRaws : List (List (String × PyVal)) :=
  [[("name", .vstr "f"), ("total_time", .vnum (3/2)),
    ("count", .vnum 2), ("children", .vlist [])]]

theorem mapExcept_ok_length {α β ε : Type} (f : α → Except ε β) (l : List α)
    (bs : List β) (h : mapExcept f l = .ok bs) : bs.length = l.length := by
  induction l generalizing bs with
  | nil =>
    simp only [mapExcept, Except.ok.injEq] at h
    subst h; rfl
  | cons a as ih =>
    unfold mapExcept at h
    cases hf : f a with
    | error e => rw [hf] at h; cases h
    | ok b =>
      rw [hf] at h
      cases hm : mapExcept f as with
      | error e => rw [hm] at h; cases h
      | ok cs =>
        rw [hm] at h
        simp only [Except.ok.injEq] at h
        subst h
        simp [ih cs hm]

theorem mapExcept_ok_get {α β ε : Type} (f : α → Except ε β) (l : List α)
    (bs : List β) (h : mapExcept f l = .ok bs) (i : Nat)
    (h1 : i < l.length) (h2 : i < bs.length) :
    f (l.get ⟨i, h1⟩) = .ok (bs.get ⟨i, h2⟩) := by
  induction l generalizing bs i with
  | nil => exact absurd h1 (Nat.not_lt_zero i)
  | cons a as ih =>
    unfold mapExcept at h
    cases hf : f a with
    | error e => rw [hf] at h; cases h
    | ok b =>
      rw [hf] at h
      cases hm : mapExcept f as with
      | error e => rw [hm] at h; cases h
      | ok cs =>
        rw [hm] at h
        simp only [Except.ok.injEq] at h
        subst h
        cases i with
        | zero => simpa using hf
        | succ j =>
          exact ih cs hm j (Nat.lt_of_succ_lt_succ h1) (Nat.lt_of_succ_lt_succ h2)

theorem mapExcept_pure {α β ε : Type} (g : α → β) (l : List α) :
    mapExcept (fun a => (Except.ok (g a) : Except ε β)) l = .ok (l.map g) := by
  induction l with
  | nil => rfl
  | cons a as ih =>
    unfold mapExcept
    rw [ih]
    rfl

theorem mapExcept_isOk {α β ε : Type} (f : α → Except ε β) (l : List α)
    (h : ∀ a ∈ l, ∃ b, f a = .ok b) : ∃ bs, mapExcept f l = .ok bs := by
  induction l with
  | nil => exact ⟨[], rfl⟩
  | cons a as ih =>
    obtain ⟨b, hb⟩ := h a (List.mem_cons_self a as)
    obtain ⟨bs, hbs⟩ := ih (fun x hx => h x (List.mem_cons_of_mem a hx))
    exact ⟨b :: bs, by unfold mapExcept; rw [hb, hbs]⟩

theorem mapExcept_error_of_mem {α β ε : Type} (f : α → Except ε β) (l : List α)
    (r : α) (hr : r ∈ l) (e : ε) (he : f r = .error e) :
    ∃ e2, mapExcept f l = .error e2 := by
  induction l with
  | nil => cases hr
  | cons a as ih =>
    cases hf : f a with
    | error e1 => exact ⟨e1, by unfold mapExcept; rw [hf]⟩
    | ok b =>
      rcases List.mem_cons.mp hr with h | h
      · subst h; rw [hf] at he; cases he
      · obtain ⟨e2, h2⟩ := ih h
        exact ⟨e2, by unfold mapExcept; rw [hf, h2]⟩

theorem pyEqStr_iff (v : PyVal) (s : String) :
    pyEqStr v s = true ↔ v = .vstr s := by
  cases v <;> simp [pyEqStr]

theorem lookup_of_mem_fst {β : Type} (l : List (String × β)) (k : String)
    (h : k ∈ l.map Prod.fst) : ∃ v, l.lookup k = some v := by
  induction l with
  | nil => simp at h
  | cons kv tl ih =>
    rcases kv with ⟨k0, v0⟩
    by_cases he : k = k0
    · subst he
      exact ⟨v0, by simp [List.lookup]⟩
    · have hb : (k == k0) = false := beq_false_of_ne he
      simp only [List.map_cons, List.mem_cons] at h
      rcases h with h | h
      · exact absurd h he
      · obtain ⟨v, hv⟩ := ih h
        exact ⟨v, by simp [List.lookup, hb, hv]⟩

theorem lookup_eq_none_of_not_mem_fst {β : Type} (l : List (String × β))
    (k : String) (h : k ∉ l.map Prod.fst) : l.lookup k = none := by
  induction l with
  | nil => rfl
  | cons kv tl ih =>
    rcases kv with ⟨k0, v0⟩
    simp only [List.map_cons, List.mem_cons] at h
    push_neg at h
    have hb : (k == k0) = false := beq_false_of_ne h.1
    simp [List.lookup, hb, ih h.2]

theorem filter_cons_first {α : Type} (q : α → Bool) (l : List α) (r : α)
    (tl : List α) (h : l.filter q = r :: tl) :
    ∃ l1 l2, l = l1 ++ r :: l2 ∧ (∀ x ∈ l1, ¬q x = true) ∧ q r = true := by
  induction l generalizing tl with
  | nil => simp at h
  | cons a as ih =>
    by_cases hq : q a = true
    · rw [List.filter_cons_of_pos hq] at h
      injection h with h1 h2
      subst h1
      exact ⟨[], as, rfl, by simp, hq⟩
    · rw [List.filter_cons_of_neg hq] at h
      obtain ⟨l1, l2, heq, hl1, hr⟩ := ih tl h
      subst heq
      refine ⟨a :: l1, l2, rfl, ?_, hr⟩
      intro x hx
      rcases List.mem_cons.mp hx with rfl | hx
      · exact hq
      · exact hl1 x hx

theorem filter_first_of {α : Type} (q : α → Bool) (l1 : List α) (r : α)
    (l2 : List α) (h1 : ∀ x ∈ l1, ¬q x = true) (h2 : q r = true) :
    (l1 ++ r :: l2).filter q = r :: l2.filter q := by
  induction l1 with
  | nil => simp [List.filter_cons_of_pos h2]
  | cons a as ih =>
    have ha : ¬q a = true := h1 a (List.mem_cons_self a as)
    rw [List.cons_append, List.filter_cons_of_neg ha]
    exact ih (fun x hx => h1 x (List.mem_cons_of_mem a hx))

theorem mkRecord_ok_of_perm (e : List (String × PyVal))
    (h : (e.map Prod.fst).Perm requiredFields) :
    ∃ n t c ch, e.lookup "name" = some n ∧ e.lookup "total_time" = some t ∧
      e.lookup "count" = some c ∧ e.lookup "children" = some ch ∧
      mkRecord e = .ok ⟨n, t, c, ch⟩ := by
  have hmem : ∀ k ∈ requiredFields, k ∈ e.map Prod.fst :=
    fun k hk => h.mem_iff.mpr hk
  obtain ⟨n, hn⟩ := lookup_of_mem_fst e "name" (hmem _ (by simp [requiredFields]))
  obtain ⟨t, ht⟩ :=
    lookup_of_mem_fst e "total_time" (hmem _ (by simp [requiredFields]))
  obtain ⟨c, hc⟩ := lookup_of_mem_fst e "count" (hmem _ (by simp [requiredFields]))
  obtain ⟨ch, hch⟩ :=
    lookup_of_mem_fst e "children" (hmem _ (by simp [requiredFields]))
  refine ⟨n, t, c, ch, hn, ht, hc, hch, ?_⟩
  have hall : (e.all fun kv => requiredFields.contains kv.1) = true := by
    apply List.all_eq_true.mpr
    intro kv hkv
    have h1 : kv.1 ∈ e.map Prod.fst := List.mem_map_of_mem Prod.fst hkv
    have h2 : kv.1 ∈ requiredFields := h.mem_iff.mp h1
    exact List.elem_iff.mpr h2
  unfold mkRecord
  rw [hn, ht, hc, hch]
  show (if (e.all fun kv => requiredFields.contains kv.1) = true then
          (Except.ok ⟨n, t, c, ch⟩ : Except PyError ProfilingsFunctionResult)
        else .error .malformedRecordError)
      = .ok ⟨n, t, c, ch⟩
  rw [if_pos hall]

theorem mkRecord_error_eq (e : List (String × PyVal)) (err : PyError)
    (h : mkRecord e = .error err) : err = .malformedRecordError := by
  unfold mkRecord at h
  repeat' split at h
  all_goals first
    | (injection h with h2; exact h2.symm)
    | cases h

theorem mkRecord_error_of_missing (e : List (String × PyVal)) (k : String)
    (hk : k ∈ requiredFields) (hnk : k ∉ e.map Prod.fst) :
    mkRecord e = .error .malformedRecordError := by
  have hnone : e.lookup k = none := lookup_eq_none_of_not_mem_fst e k hnk
  simp only [requiredFields, List.mem_cons, List.not_mem_nil, or_false] at hk
  unfold mkRecord
  rcases hk with rfl | rfl | rfl | rfl
  · rw [hnone]
  · cases e.lookup "name" with
    | none => rfl
    | some n => rw [hnone]
  · cases e.lookup "name" with
    | none => rfl
    | some n =>
      cases e.lookup "total_time" with
      | none => rfl
      | some t => rw [hnone]
  · cases e.lookup "name" with
    | none => rfl
    | some n =>
      cases e.lookup "total_time" with
      | none => rfl
      | some t =>
        cases e.lookup "count" with
        | none => rfl
        | some c => rw [hnone]

theorem mkRecord_error_of_extra (e : List (String × PyVal)) (k : String)
    (hk : k ∈ e.map Prod.fst) (hnk : k ∉ requiredFields) :
    mkRecord e = .error .malformedRecordError := by
  have hall : (e.all fun kv => requiredFields.contains kv.1) = false := by
    obtain ⟨kv, hkv, hfst⟩ := List.mem_map.mp hk
    apply Bool.eq_false_iff.mpr
    intro hall
    have := List.all_eq_true.mp hall kv hkv
    rw [hfst] at this
    exact hnk (List.elem_iff.mp this)
  unfold mkRecord
  cases e.lookup "name" with
  | none => rfl
  | some n =>
    cases e.lookup "total_time" with
    | none => rfl
    | some t =>
      cases e.lookup "count" with
      | none => rfl
      | some c =>
        cases e.lookup "children" with
        | none => rfl
        | some ch =>
          show (if (e.all fun kv => requiredFields.contains kv.1) = true then
                  (Except.ok ⟨n, t, c, ch⟩ :
                    Except PyError ProfilingsFunctionResult)
                else .error .malformedRecordError)
              = .error .malformedRecordError
          rw [if_neg (by rw [hall]; simp)]

theorem mapExcept_mkRecord_error (raws : List (List (String × PyVal)))
    (hone : ∃ e ∈ raws, mkRecord e = .error .malformedRecordError) :
    mapExcept mkRecord raws = .error .malformedRecordError := by
  induction raws with
  | nil =>
    obtain ⟨e, he, -⟩ := hone
    cases he
  | cons a as ih =>
    unfold mapExcept
    cases ha : mkRecord a with
    | error err =>
      have heq := mkRecord_error_eq a err ha
      subst heq
      rfl
    | ok b =>
      obtain ⟨e, he, herr⟩ := hone
      rcases List.mem_cons.mp he with rfl | he2
      · rw [ha] at herr; cases herr
      · rw [ih ⟨e, he2, herr⟩]

theorem printer_inv (p : ProfilingResultPrinter) (h : PrinterReachable p) :
    p.column_datas ≠ [] ∧
    ∀ c ∈ p.column_datas, c.column_data.length = p.profiling_results.length := by
  induction h with
  | init raws p h =>
    simp only [mkPrinter] at h
    cases hm : mapExcept mkRecord raws with
    | error e => rw [hm] at h; cases h
    | ok records =>
      rw [hm] at h
      injection h with h
      subst h
      refine ⟨by simp, ?_⟩
      intro c hc
      rw [List.mem_singleton.mp hc]
      simp
  | add p column_name f h ih =>
    unfold ProfilingResultPrinter.add_column
    cases hm : mapExcept f p.profiling_results with
    | error e => exact ih
    | ok vals =>
      refine ⟨by simp, ?_⟩
      intro c hc
      rcases List.mem_append.mp hc with hc | hc
      · exact ih.2 c hc
      · rw [List.mem_singleton.mp hc]
        exact mapExcept_ok_length f p.profiling_results vals hm

theorem mkTableBuilder_ok (cds : List ProfilingColumnData) (w n : Nat)
    (hne : cds ≠ []) (hlen : ∀ c ∈ cds, c.column_data.length = n) :
    ∃ b, mkTableBuilder cds w = .ok b ∧ b.column_datas = cds ∧
      b.column_width = w ∧ b.row_datas.length = n := by
  cases cds with
  | nil => exact absurd rfl hne
  | cons c0 rest =>
    have h0 : c0.column_data.length = n := hlen c0 (List.mem_cons_self _ _)
    have hrows : ∀ i ∈ List.range c0.column_data.length,
        ∃ row, buildRow (c0 :: rest) i = .ok row := by
      intro i hi
      have hi2 : i < n := by rw [← h0]; exact List.mem_range.mp hi
      unfold buildRow
      apply mapExcept_isOk
      intro c hc
      have hcl : c.column_data.length = n := hlen c hc
      cases hg : c.column_data.get? i with
      | none =>
        have := List.get?_eq_none.mp hg
        omega
      | some v => exact ⟨v, rfl⟩
    obtain ⟨rows, hok⟩ := mapExcept_isOk (buildRow (c0 :: rest)) _ hrows
    refine ⟨⟨c0 :: rest, w, rows⟩, ?_, rfl, rfl, ?_⟩
    · simp only [mkTableBuilder]
      rw [hok]
    · have hl := mapExcept_ok_length _ _ _ hok
      rw [List.length_range] at hl
      rw [hl, h0]

theorem append_pipe_newline (x : String) : x ++ " |\n" = (x ++ " |") ++ "\n" := by
  rw [String.append_assoc]
  rfl

/-- C1: for the single record `{name: "f", total_time: 1.5, count: 2,
children: []}` with no extra columns and column width 5, the header is
`"| func  |\n"`, the separator is `"| ----- |\n"`, the body is
`"| f     |\n"`, and `generate_table_str` is their concatenation in that
order. -/
theorem claim_example_table_width5 :
    (mkPrinter (some [[("name", PyVal.vstr "f"), ("total_time", PyVal.vnum (3/2)),
        ("count", PyVal.vnum 2), ("children", PyVal.vlist [])]])).map (fun p =>
      (mkTableBuilder p.column_datas 5).map (fun b =>
        (b.generate_header, b.generate_horizontal_lines,
         b.generate_result_row_by_row, b.generate_table_str)))
    = .ok (.ok ("| func  |\n", "| ----- |\n", "| f     |\n",
        "| func  |\n" ++ "| ----- |\n" ++ "| f     |\n")) := rfl

/-- C2: for every reachable printer state (any raw record list, any sequence
of added columns) and any positive column width, building the table
succeeds, `generate_table_str` is the concatenation of header, horizontal
line and body in that order, the header and the horizontal line are each
newline-terminated lines preceding the body, and there is exactly one body
row per record — including zero rows for zero records. -/
theorem claim_table_header_sep_body (p : ProfilingResultPrinter) (w : Nat)
    (hp : PrinterReachable p) (hw : 0 < w) :
    ∃ b, mkTableBuilder p.column_datas w = .ok b ∧
      b.generate_table_str =
        b.generate_header ++ b.generate_horizontal_lines
          ++ b.generate_result_row_by_row ∧
      (∃ h1, b.generate_header = h1 ++ "\n") ∧
      (∃ s1, b.generate_horizontal_lines = s1 ++ "\n") ∧
      b.row_datas.length = p.profiling_results.length := by
  obtain ⟨hne, hlen⟩ := printer_inv p hp
  obtain ⟨b, hb, hcds, hww, hrows⟩ :=
    mkTableBuilder_ok p.column_datas w p.profiling_results.length hne hlen
  refine ⟨b, hb, rfl, ⟨_, append_pipe_newline ("| " ++ String.intercalate " | "
      (b.column_datas.map (fun d => pyLjust d.column_name b.column_width ' ')))⟩,
    ⟨_, append_pipe_newline ("| " ++ String.intercalate " | "
      (b.column_datas.map (fun _ => pyLjust "" b.column_width '-')))⟩, hrows⟩

theorem claim_table_header_sep_body_witness :
    (mkTableBuilder
      (ProfilingResultPrinter.mk [] [⟨"func", []⟩]).column_datas 5).isOk = true := by
  obtain ⟨b, hb, -⟩ := claim_table_header_sep_body
    (ProfilingResultPrinter.mk [] [⟨"func", []⟩]) 5
    (PrinterReachable.init [] _ rfl) (by decide)
  rw [hb]
  rfl

/-- C3 (the code violates the claim): constructing a `ProfilingTableBuilder`
from an empty column list raises `IndexError` at `column_datas[0]` in
`__init__`, even though `generate_result_row_by_row` itself guards the
zero-column case and would return the empty string for it. -/
theorem claim_empty_columns_raises :
    mkTableBuilder [] 30 = .error .indexError ∧
    ProfilingTableBuilder.generate_result_row_by_row ⟨[], 30, []⟩ = "" :=
  ⟨rfl, rfl⟩

/-- C4: `__getitem__` raises `NotFoundError` exactly when no stored record's
name is a string equal to the input (case-sensitive full equality); when it
returns a record, that record is the first one in record order whose name
equals the input, and `NotFoundError` is the only error it can raise. -/
theorem claim_getitem_first_match (p : ProfilingResultPrinter) (s : String) :
    (p.getItem s = .error .notFoundError ↔
      ∀ r ∈ p.profiling_results, r.name ≠ PyVal.vstr s) ∧
    (∀ r, p.getItem s = .ok r ↔
      ∃ l1 l2, p.profiling_results = l1 ++ r :: l2 ∧
        (∀ x ∈ l1, x.name ≠ PyVal.vstr s) ∧ r.name = PyVal.vstr s) ∧
    (∀ e, p.getItem s = .error e → e = .notFoundError) := by
  refine ⟨?_, ?_, ?_⟩
  · cases hf : p.profiling_results.filter (fun x => pyEqStr x.name s) with
    | nil =>
      have hget : p.getItem s = .error .notFoundError := by
        unfold ProfilingResultPrinter.getItem
        rw [hf]
      constructor
      · intro _ r hr
        have := List.filter_eq_nil_iff.mp hf r hr
        simpa [pyEqStr_iff] using this
      · intro _
        exact hget
    | cons r0 tl =>
      have hget : p.getItem s = .ok r0 := by
        unfold ProfilingResultPrinter.getItem
        rw [hf]
      constructor
      · intro h
        rw [hget] at h
        cases h
      · intro hall
        obtain ⟨l1, l2, heq, hl1, hr⟩ := filter_cons_first _ _ _ _ hf
        have hmem : r0 ∈ p.profiling_results := by
          rw [heq]
          exact List.mem_append_right l1 (List.mem_cons_self r0 l2)
        exact absurd ((pyEqStr_iff _ _).mp hr) (hall r0 hmem)
  · intro r
    constructor
    · intro h
      rcases hf : p.profiling_results.filter (fun x => pyEqStr x.name s)
        with _ | ⟨r0, tl⟩
      · unfold ProfilingResultPrinter.getItem at h
        rw [hf] at h
        cases h
      · unfold ProfilingResultPrinter.getItem at h
        rw [hf] at h
        injection h with h
        subst h
        obtain ⟨l1, l2, heq, hl1, hr⟩ := filter_cons_first _ _ _ _ hf
        refine ⟨l1, l2, heq, ?_, (pyEqStr_iff _ _).mp hr⟩
        intro x hx
        have := hl1 x hx
        simpa [pyEqStr_iff] using this
    · rintro ⟨l1, l2, heq, hl1, hr⟩
      unfold ProfilingResultPrinter.getItem
      rw [heq, filter_first_of _ l1 r l2
        (fun x hx => by simpa [pyEqStr_iff] using hl1 x hx)
        ((pyEqStr_iff _ _).mpr hr)]
  · intro e h
    cases hf : p.profiling_results.filter (fun x => pyEqStr x.name s) with
    | nil =>
      unfold ProfilingResultPrinter.getItem at h
      rw [hf] at h
      injection h with h
      exact h.symm
    | cons r0 tl =>
      unfold ProfilingResultPrinter.getItem at h
      rw [hf] at h
      cases h

/-- C5: for every raw list whose entries each supply exactly the fields
`name`, `total_time`, `count` and `children`, construction succeeds and
yields one record per entry, in the same order, with every field copied
verbatim from the entry. -/
theorem claim_records_copied (raws : List (List (String × PyVal)))
    (hfields : ∀ e ∈ raws, (e.map Prod.fst).Perm requiredFields) :
    ∃ p, mkPrinter (some raws) = .ok p ∧
      p.profiling_results.length = raws.length ∧
      ∀ i (h1 : i < raws.length) (h2 : i < p.profiling_results.length),
        (raws.get ⟨i, h1⟩).lookup "name"
            = some ((p.profiling_results.get ⟨i, h2⟩).name) ∧
        (raws.get ⟨i, h1⟩).lookup "total_time"
            = some ((p.profiling_results.get ⟨i, h2⟩).total_time) ∧
        (raws.get ⟨i, h1⟩).lookup "count"
            = some ((p.profiling_results.get ⟨i, h2⟩).count) ∧
        (raws.get ⟨i, h1⟩).lookup "children"
            = some ((p.profiling_results.get ⟨i, h2⟩).children) := by
  have hok : ∀ e ∈ raws, ∃ r, mkRecord e = .ok r := by
    intro e he
    obtain ⟨n, t, c, ch, -, -, -, -, hmk⟩ := mkRecord_ok_of_perm e (hfields e he)
    exact ⟨_, hmk⟩
  obtain ⟨records, hrec⟩ := mapExcept_isOk mkRecord raws hok
  refine ⟨⟨records, [⟨"func", records.map (fun r => r.name)⟩]⟩, ?_, ?_, ?_⟩
  · simp only [mkPrinter]
    rw [hrec]
  · exact mapExcept_ok_length mkRecord raws records hrec
  · intro i h1 h2
    have hget := mapExcept_ok_get mkRecord raws records hrec i h1 h2
    obtain ⟨n, t, c, ch, hn, ht, hc, hch, hmk⟩ :=
      mkRecord_ok_of_perm (raws.get ⟨i, h1⟩) (hfields _ (List.get_mem raws i h1))
    rw [hmk] at hget
    injection hget with hget
    rw [← hget]
    exact ⟨hn, ht, hc, hch⟩

theorem claim_records_copied_witness :
    ∃ p, mkPrinter (some sampleRaws) = .ok p ∧
      p.profiling_results.length = sampleRaws.length := by
  obtain ⟨p, h1, h2, -⟩ := claim_records_copied sampleRaws (by decide)
  exact ⟨p, h1, h2⟩

/-- C6: constructing from `None` raises `InvalidInputError`; constructing
from the empty list succeeds with zero records and exactly one column,
`"func"` at index 0, with empty data; and in general the column store of a
freshly constructed printer is exactly the single `"func"` column holding
the records' names in record order. -/
theorem claim_none_rejected_empty_ok :
    mkPrinter none = .error .invalidInputError ∧
    (∃ p, mkPrinter (some []) = .ok p ∧ p.profiling_results = [] ∧
      p.column_datas = [⟨"func", []⟩]) ∧
    (∀ raws p, mkPrinter (some raws) = .ok p →
      p.column_datas
        = [⟨"func", p.profiling_results.map (fun r => r.name)⟩]) := by
  refine ⟨rfl, ⟨⟨[], [⟨"func", []⟩]⟩, rfl, rfl, rfl⟩, ?_⟩
  intro raws p h
  simp only [mkPrinter] at h
  cases hm : mapExcept mkRecord raws with
  | error e => rw [hm] at h; cases h
  | ok records =>
    rw [hm] at h
    injection h with h
    subst h
    rfl

/-- C7: construction fails with `MalformedRecordError` when some raw entry
is missing one of the required fields or carries a field beyond them. -/
theorem claim_malformed_entry_fails (raws : List (List (String × PyVal)))
    (e : List (String × PyVal)) (he : e ∈ raws)
    (hbad : (∃ k ∈ requiredFields, k ∉ e.map Prod.fst) ∨
      (∃ k ∈ e.map Prod.fst, k ∉ requiredFields)) :
    mkPrinter (some raws) = .error .malformedRecordError := by
  have herr : mkRecord e = .error .malformedRecordError := by
    rcases hbad with ⟨k, hk, hnk⟩ | ⟨k, hk, hnk⟩
    · exact mkRecord_error_of_missing e k hk hnk
    · exact mkRecord_error_of_extra e k hk hnk
  simp only [mkPrinter]
  rw [mapExcept_mkRecord_error raws ⟨e, he, herr⟩]

theorem claim_malformed_entry_fails_witness :
    mkPrinter (some [[("name", PyVal.vstr "f")]])
      = .error .malformedRecordError :=
  claim_malformed_entry_fails [[("name", PyVal.vstr "f")]]
    [("name", PyVal.vstr "f")] (List.mem_singleton.mpr rfl)
    (Or.inl ⟨"total_time", by decide, by decide⟩)

/-- C8: adding a column with a projector that succeeds on every record
appends exactly one column, holding the projector's value for each record
in record order (hence with one entry per record, zero for zero records),
returns successfully, and leaves the records and every previously added
column unchanged in name, content, length and position. -/
theorem claim_add_column_appends (p : ProfilingResultPrinter)
    (column_name : String) (g : ProfilingsFunctionResult → PyVal) :
    ∃ q, p.add_column column_name
        (fun r => (Except.ok (g r) : Except Empty PyVal)) = (.ok (), q) ∧
      q.profiling_results = p.profiling_results ∧
      q.column_datas
        = p.column_datas ++ [⟨column_name, p.profiling_results.map g⟩] ∧
      (p.profiling_results.map g).length = p.profiling_results.length ∧
      q.column_datas.take p.column_datas.length = p.column_datas := by
  refine ⟨⟨p.profiling_results,
      p.column_datas ++ [⟨column_name, p.profiling_results.map g⟩]⟩,
    ?_, rfl, rfl, by simp, ?_⟩
  · unfold ProfilingResultPrinter.add_column
    rw [mapExcept_pure]
  · exact List.take_left p.column_datas _

/-- C9: a body cell is `str(value).ljust(width)`: the value's string
representation followed by right-padding spaces; a representation no longer
than the width is padded to exactly the width, and one at least as long as
the width is rendered whole, never truncated. -/
theorem claim_body_cell_padding (v : PyVal) (w : Nat) :
    bodyCell v w
        = pyStr v ++ String.mk (List.replicate (w - (pyStr v).length) ' ') ∧
    ((pyStr v).length ≤ w → (bodyCell v w).length = w) ∧
    (w ≤ (pyStr v).length → bodyCell v w = pyStr v) := by
  refine ⟨rfl, ?_, ?_⟩
  · intro h
    show (pyStr v ++ String.mk (List.replicate (w - (pyStr v).length) ' ')).length = w
    rw [String.length_append]
    show (pyStr v).length + (List.replicate (w - (pyStr v).length) ' ').length = w
    rw [List.length_replicate]
    omega
  · intro h
    show pyStr v ++ String.mk (List.replicate (w - (pyStr v).length) ' ') = pyStr v
    rw [Nat.sub_eq_zero_of_le h]
    exact String.append_empty _

/-- C10: `add_column` is atomic on projector failure: when the projector
raises on some record, the call reports the failure and the printer's state
— in particular its column store — is exactly what it was before the call;
no partial column is appended. -/
theorem claim_add_column_atomic {ε : Type} (p : ProfilingResultPrinter)
    (column_name : String) (f : ProfilingsFunctionResult → Except ε PyVal)
    (h : ∃ r ∈ p.profiling_results, ∃ e, f r = .error e) :
    (∃ e, (p.add_column column_name f).1 = .error e) ∧
    (p.add_column column_name f).2 = p := by
  obtain ⟨r, hr, e, he⟩ := h
  obtain ⟨e2, h2⟩ := mapExcept_error_of_mem f p.profiling_results r hr e he
  unfold ProfilingResultPrinter.add_column
  rw [h2]
  exact ⟨⟨e2, rfl⟩, rfl⟩

theorem claim_add_column_atomic_witness :
    ((ProfilingResultPrinter.mk
        [⟨.vstr "f", .vnum 1, .vnum 1, .vlist []⟩] [⟨"func", [.vstr "f"]⟩]).add_column
      "bad" (fun _ => (Except.error () : Except Unit PyVal))).2
    = ProfilingResultPrinter.mk
        [⟨.vstr "f", .vnum 1, .vnum 1, .vlist []⟩] [⟨"func", [.vstr "f"]⟩] :=
  (claim_add_column_atomic _ "bad" _
    ⟨⟨.vstr "f", .vnum 1, .vnum 1, .vlist []⟩,
      List.mem_singleton.mpr rfl, (), rfl⟩).2
